import Mathlib

/-!
Verification development for the `unwind-context` crate.

The Rust source is shallowly embedded as follows.

* A `core::fmt::Write` sink only ever observes a sequence of `write_str` /
  `write_char` calls.  Every rendering function of the crate is therefore
  modelled as a pure function producing a trace of write events
  (`WEv`), mirroring the order of the writes performed by the source.
  A fixed-capacity sink (`FixedSink`, the crate's `FixedBufWriter` test
  sink and, more generally, any sink that can fail) replays such a trace,
  failing exactly when a write does not fit; `Result`-propagation of the
  source's `?` operators corresponds to `runWrites` aborting at the first
  failed write.
* A value of an arbitrary `T : Debug` type is modelled by the list of
  string fragments its `Debug::fmt` implementation feeds to the formatter
  (`Value := List String`).
* Rust strings are modelled as `List Char`.  The byte-level keyword
  lookahead (`match_true_ident` / `match_false_ident`) is modelled on
  characters: the bytes `"true"`/`"false"` can only match ASCII
  characters, and the boundary byte test `!is_ascii_alphanumeric && != _`
  is false for every leading byte of a non-ASCII character, which
  coincides with the character-level test used here.
* Rust's Unicode-aware `char::is_alphanumeric` is kept as an explicit
  parameter `isAlnum` of the colorizer; `Char.isAlphanum` (its ASCII
  restriction) is used for concrete instances.  All universally
  quantified results hold for every choice of `isAlnum`.
-/

/-- The twelve-entry ANSI color scheme (`AnsiColorScheme` in
`src/color_scheme.rs`). -/
structure AnsiColorScheme where
  default : String
  location : String
  fn_keyword : String
  func_name : String
  func_braces : String
  value_braces : String
  ident : String
  item : String
  boolean : String
  number : String
  quoted : String
  escaped : String
  deriving DecidableEq, Repr

/-- `DEFAULT_DEFAULT_COLOR_SCHEME` from `src/color_scheme.rs`. -/
def DEFAULT_DEFAULT_COLOR_SCHEME : AnsiColorScheme where
  default := "\x1b[0m"
  location := "\x1b[94m"
  fn_keyword := "\x1b[33m"
  func_name := "\x1b[93m"
  func_braces := "\x1b[0m"
  value_braces := "\x1b[0m"
  ident := "\x1b[0;33m"
  item := "\x1b[0;33m"
  boolean := "\x1b[1;93m"
  number := "\x1b[0;96m"
  quoted := "\x1b[0;32m"
  escaped := "\x1b[0;95m"

/-- The color scheme all of whose entries are the empty string. -/
def emptyColorScheme : AnsiColorScheme where
  default := ""
  location := ""
  fn_keyword := ""
  func_name := ""
  func_braces := ""
  value_braces := ""
  ident := ""
  item := ""
  boolean := ""
  number := ""
  quoted := ""
  escaped := ""

/-- The fine-grained colorizer state (`ColoredWriterMode` in `src/arg.rs`). -/
inductive ColoredWriterMode where
  | Default
  | Ident
  | Item
  | Boolean
  | Number
  | DoubleQuoted
  | DoubleQuotedEscapeChar
  | DoubleQuotedEscaped
  | SingleQuoted
  | SingleQuotedEscapeChar
  | SingleQuotedEscaped
  | QuotedEnd
  | Brace
  deriving DecidableEq, Repr

/-- The coarse style categories (`ColoredWriterModeStyle` in `src/arg.rs`). -/
inductive ColoredWriterModeStyle where
  | Default
  | Ident
  | Item
  | Boolean
  | Number
  | Quoted
  | Escaped
  | Brace
  deriving DecidableEq, Repr

/-- `ColoredWriterMode::style` from `src/arg.rs`. -/
def ColoredWriterMode.style : ColoredWriterMode → ColoredWriterModeStyle
  | .Default => .Default
  | .Ident => .Ident
  | .Item => .Item
  | .Boolean => .Boolean
  | .Number => .Number
  | .DoubleQuoted | .SingleQuoted | .QuotedEnd => .Quoted
  | .DoubleQuotedEscapeChar | .DoubleQuotedEscaped
  | .SingleQuotedEscapeChar | .SingleQuotedEscaped => .Escaped
  | .Brace => .Brace

/-- `ColoredWriterModeStyle::ansi_style` from `src/arg.rs`. -/
def ColoredWriterModeStyle.ansiStyle : ColoredWriterModeStyle → AnsiColorScheme → String
  | .Default, cs => cs.default
  | .Ident, cs => cs.ident
  | .Item, cs => cs.item
  | .Boolean, cs => cs.boolean
  | .Number, cs => cs.number
  | .Quoted, cs => cs.quoted
  | .Escaped, cs => cs.escaped
  | .Brace, cs => cs.value_braces

/-- The boundary test of `match_true_ident` / `match_false_ident`
(`src/arg.rs`): the byte after the keyword is absent, or is neither an
ASCII alphanumeric nor an underscore. -/
def keywordBoundary : List Char → Bool
  | [] => true
  | c :: _ => !c.isAlphanum && c != '_'

/-- `match_true_ident` from `src/arg.rs`, on the remaining input of the
current `write_str` call. -/
def matchTrueIdent : List Char → Bool
  | 't' :: 'r' :: 'u' :: 'e' :: rest => keywordBoundary rest
  | _ => false

/-- `match_false_ident` from `src/arg.rs`. -/
def matchFalseIdent : List Char → Bool
  | 'f' :: 'a' :: 'l' :: 's' :: 'e' :: rest => keywordBoundary rest
  | _ => false

/-- The character class `'0'..='9' | '+' | '-' | '.'` used by the
colorizer. -/
def isDigitOrSign (c : Char) : Bool :=
  c.isDigit || c == '+' || c == '-' || c == '.'

/-- The character class `'(' | ')' | '[' | ']' | '{' | '}'` used by the
colorizer. -/
def isBraceChar (c : Char) : Bool :=
  c == '(' || c == ')' || c == '[' || c == ']' || c == '\x7b' || c == '\x7d'

/-- One transition of `ColoredWriter::write_str` (`src/arg.rs`): the new
mode after reading `ch`, where `rest` is the remainder of the current
`write_str` input (used by the `true`/`false` lookahead) and `isAlnum`
models `char::is_alphanumeric`. -/
def step (isAlnum : Char → Bool) (m : ColoredWriterMode) (ch : Char)
    (rest : List Char) : ColoredWriterMode :=
  match m with
  | .Default | .QuotedEnd | .Brace =>
      if isDigitOrSign ch then .Number
      else if isBraceChar ch then .Brace
      else if ch == '_' then .Ident
      else if ch == '\"' then .DoubleQuoted
      else if ch == '\'' then .SingleQuoted
      else if ch.isUpper then .Item
      else if isAlnum ch then
        if matchTrueIdent (ch :: rest) || matchFalseIdent (ch :: rest) then
          .Boolean
        else
          .Ident
      else .Default
  | .Ident | .Item =>
      if isBraceChar ch then .Brace
      else if ch == '#' || ch == '_' then m
      else if ch == '\"' then .DoubleQuoted
      else if ch == '\'' then .SingleQuoted
      else if isAlnum ch then m
      else .Default
  | .Boolean =>
      if isDigitOrSign ch then .Number
      else if isBraceChar ch then .Brace
      else if ch == '#' || ch == '_' then .Ident
      else if ch == '\"' then .DoubleQuoted
      else if ch == '\'' then .SingleQuoted
      else if isAlnum ch then .Boolean
      else .Default
  | .Number =>
      if isDigitOrSign ch || ch == '_' then .Number
      else if isBraceChar ch then .Brace
      else if ch == '\"' then .DoubleQuoted
      else if ch == '\'' then .SingleQuoted
      else if isAlnum ch then .Ident
      else .Default
  | .DoubleQuoted | .DoubleQuotedEscaped =>
      if ch == '\"' then .QuotedEnd
      else if ch == '\\' then .DoubleQuotedEscapeChar
      else .DoubleQuoted
  | .DoubleQuotedEscapeChar => .DoubleQuotedEscaped
  | .SingleQuoted | .SingleQuotedEscaped =>
      if ch == '\'' then .QuotedEnd
      else if ch == '\\' then .SingleQuotedEscapeChar
      else .SingleQuoted
  | .SingleQuotedEscapeChar => .SingleQuotedEscaped

/-- A single write observed by the underlying sink: a plain string
written via `write_str`, a payload character written by the colorizer
via `write_char`, or a color-scheme escape string. -/
inductive WEv where
  | str : String → WEv
  | chr : Char → WEv
  | sty : String → WEv
  deriving DecidableEq, Repr

/-- The characters a single write event delivers to the sink. -/
def WEv.chars : WEv → List Char
  | .str s => s.data
  | .chr c => [c]
  | .sty s => s.data

/-- All characters a trace of writes delivers to the sink, in order. -/
def flattenW (evs : List WEv) : List Char :=
  (evs.map WEv.chars).flatten

/-- The payload characters of a trace: the characters forwarded by the
colorizer itself, excluding the inserted color-scheme escape strings. -/
def payloadChars (evs : List WEv) : List Char :=
  evs.filterMap fun ev =>
    match ev with
    | .chr c => some c
    | _ => none

/-- The escape write performed when the style category changes
(`if prev_style != style { ... write_str(style.ansi_style(cs)) }`). -/
def styleChangeEvs (cs : AnsiColorScheme) (prev next : ColoredWriterMode) :
    List WEv :=
  if next.style == prev.style then [] else [.sty (next.style.ansiStyle cs)]

/-- `ColoredWriter::write_str` from `src/arg.rs` as a trace transformer:
starting in mode `m`, processing the characters of one `write_str` call
yields the final mode and the writes forwarded to the inner sink. -/
def coloredWriteStrEvs (isAlnum : Char → Bool) (cs : AnsiColorScheme) :
    ColoredWriterMode → List Char → ColoredWriterMode × List WEv
  | m, [] => (m, [])
  | m, ch :: rest =>
      let m2 := step isAlnum m ch rest
      let res := coloredWriteStrEvs isAlnum cs m2 rest
      (res.1, styleChangeEvs cs m m2 ++ WEv.chr ch :: res.2)

/-- A `ColoredWriter` receiving several consecutive `write_str` calls
(the fragments of a wrapped value's `Debug` output); the mode persists
across the calls. -/
def coloredFragsEvs (isAlnum : Char → Bool) (cs : AnsiColorScheme) :
    ColoredWriterMode → List String → ColoredWriterMode × List WEv
  | m, [] => (m, [])
  | m, s :: rest =>
      let res1 := coloredWriteStrEvs isAlnum cs m s.data
      let res2 := coloredFragsEvs isAlnum cs res1.1 rest
      (res2.1, res1.2 ++ res2.2)

/-- `ColoredWriter::reset` from `src/arg.rs`: write the `default` escape
if the current style category is not `Default`. -/
def resetEvs (cs : AnsiColorScheme) (m : ColoredWriterMode) : List WEv :=
  if m.style == ColoredWriterModeStyle.Default then []
  else [.sty cs.default]

/-- The per-character mode sequence the colorizer assigns to an input:
element `i` is the mode in effect when character `i` is written. -/
def modesOf (isAlnum : Char → Bool) (m : ColoredWriterMode) :
    List Char → List ColoredWriterMode
  | [] => []
  | ch :: rest =>
      let m2 := step isAlnum m ch rest
      m2 :: modesOf isAlnum m2 rest

/-- `UnwindContextArg` from `src/arg.rs`: an optional argument name and
a value; the value is modelled by the string fragments its `Debug`
implementation writes. -/
structure UnwindContextArg where
  name : Option String
  value : List String
  deriving DecidableEq, Repr

/-- The `Debug` fragments of `NonExhaustiveMarker`
(`src/non_exhaustive.rs`): `f.write_str("...")`. -/
def nonExhaustiveMarkerValue : List String := ["..."]

/-- The cons-list of arguments wrapped by `UnwindContextArgs`
(`src/args.rs`): the type-level tuple list `(A, (B, (..., ())))` is
embedded as a value-level list. -/
inductive UnwindContextArgs where
  | nil : UnwindContextArgs
  | cons : UnwindContextArg → UnwindContextArgs → UnwindContextArgs
  deriving DecidableEq, Repr

/-- `UnwindContextFunc` from `src/func.rs`. -/
structure UnwindContextFunc where
  name : String
  args : UnwindContextArgs
  deriving DecidableEq, Repr

/-- The writes of `impl Debug for UnwindContextArg` (`src/arg.rs`):
`write!(f, "{name}: ")?` when the name is present, then the value's
`Debug` fragments. -/
def argPlainEvs (a : UnwindContextArg) : List WEv :=
  (match a.name with
   | some n => [.str n, .str ": "]
   | none => []) ++ a.value.map WEv.str

/-- The writes of `impl DebugAnsiColored for UnwindContextArg`
(`src/arg.rs`): the name part goes to the formatter directly; the value
fragments pass through a fresh `ColoredWriter` which is finally
`reset`. -/
def argColoredEvs (isAlnum : Char → Bool) (cs : AnsiColorScheme)
    (a : UnwindContextArg) : List WEv :=
  (match a.name with
   | some n => [.str n, .str ": "]
   | none => []) ++
  (let res := coloredFragsEvs isAlnum cs .Default a.value
   res.2 ++ resetEvs cs res.1)

/-- The writes of the `Debug` impls of `UnwindContextArgs`
(`src/args.rs`): empty list writes nothing, a single argument is
formatted alone, and a longer list is formatted as
`write!(f, "{:?}, {:?}", head, rest)`. -/
def argsPlainEvs : UnwindContextArgs → List WEv
  | .nil => []
  | .cons a .nil => argPlainEvs a
  | .cons a (.cons b r) => argPlainEvs a ++ WEv.str ", " :: argsPlainEvs (.cons b r)

/-- The writes of the `DebugAnsiColored` impls of `UnwindContextArgs`
(`src/args.rs`); the `", "` separator is written to the formatter
directly, outside the per-argument `ColoredWriter`. -/
def argsColoredEvs (isAlnum : Char → Bool) (cs : AnsiColorScheme) :
    UnwindContextArgs → List WEv
  | .nil => []
  | .cons a .nil => argColoredEvs isAlnum cs a
  | .cons a (.cons b r) =>
      argColoredEvs isAlnum cs a ++
        WEv.str ", " :: argsColoredEvs isAlnum cs (.cons b r)

/-- The writes of `impl Debug for UnwindContextFunc` (`src/func.rs`):
`write!(f, "fn {}({:?})", name, args)`. -/
def funcPlainEvs (f : UnwindContextFunc) : List WEv :=
  WEv.str "fn " :: WEv.str f.name :: WEv.str "(" ::
    (argsPlainEvs f.args ++ [WEv.str ")"])

/-- The writes of `impl DebugAnsiColored for UnwindContextFunc`
(`src/func.rs`):
`write!(f, "{}fn {}{}{}({}{:?}{}){}", fn_keyword, func_name, name,
func_braces, default, args, func_braces, default)`. -/
def funcColoredEvs (isAlnum : Char → Bool) (cs : AnsiColorScheme)
    (f : UnwindContextFunc) : List WEv :=
  WEv.sty cs.fn_keyword :: WEv.str "fn " :: WEv.sty cs.func_name ::
    WEv.str f.name :: WEv.sty cs.func_braces :: WEv.str "(" ::
    WEv.sty cs.default ::
    (argsColoredEvs isAlnum cs f.args ++
      [WEv.sty cs.func_braces, WEv.str ")", WEv.sty cs.default])

/-- A guard's payload (`build_unwind_context_data` produces either an
`UnwindContextArgs` or an `UnwindContextFunc`). -/
inductive UnwindContextData where
  | args : UnwindContextArgs → UnwindContextData
  | func : UnwindContextFunc → UnwindContextData
  deriving DecidableEq, Repr

/-- Plain `Debug` writes of a guard payload. -/
def dataPlainEvs : UnwindContextData → List WEv
  | .args l => argsPlainEvs l
  | .func f => funcPlainEvs f

/-- Colored (`DebugAnsiColored`) writes of a guard payload. -/
def dataColoredEvs (isAlnum : Char → Bool) (cs : AnsiColorScheme) :
    UnwindContextData → List WEv
  | .args l => argsColoredEvs isAlnum cs l
  | .func f => funcColoredEvs isAlnum cs f

/-- A fixed-capacity text sink (the crate's `FixedBufWriter` test sink,
extended with a flush counter for the `std::io::Write` guard variant).
A write succeeds only if the whole string fits; a failed write leaves
the sink unchanged.  `flushFails` makes `flush` report an error. -/
structure FixedSink where
  cap : Nat
  out : List Char
  flushes : Nat
  flushFails : Bool
  deriving DecidableEq, Repr

/-- An empty sink of capacity `k` whose flushes succeed. -/
def emptySink (k : Nat) : FixedSink :=
  { cap := k, out := [], flushes := 0, flushFails := false }

/-- One `write_str` on the sink (`FixedBufWriter::write_str` in
`src/test_util.rs`): fails, leaving the state unchanged, iff the data
does not fit.  The error carries the sink state so that partial output
written by earlier calls is retained. -/
def sinkWrite (st : FixedSink) (s : List Char) : Except FixedSink FixedSink :=
  if st.out.length + s.length ≤ st.cap then
    .ok { st with out := st.out ++ s }
  else
    .error st

/-- Replay a write trace against a sink, stopping at the first failed
write (the `?` propagation used by every rendering layer). -/
def runWrites : List WEv → FixedSink → Except FixedSink FixedSink
  | [], st => .ok st
  | ev :: rest, st =>
      match sinkWrite st ev.chars with
      | .ok st2 => runWrites rest st2
      | .error st2 => .error st2

/-- Whether a replay ended in a write failure. -/
def isFail (r : Except FixedSink FixedSink) : Bool :=
  match r with
  | .error _ => true
  | .ok _ => false

/-- Replay a write trace discarding any failure (`let _ = writeln!(...)`
in the guards' `print`): output written before the failure is kept. -/
def runSwallow (evs : List WEv) (st : FixedSink) : FixedSink :=
  match runWrites evs st with
  | .ok st2 => st2
  | .error st2 => st2

/-- `flush` on the sink: counts the attempt and fails iff `flushFails`. -/
def sinkFlush (st : FixedSink) : Except FixedSink FixedSink :=
  let st2 := { st with flushes := st.flushes + 1 }
  if st.flushFails then .error st2 else .ok st2

/-- A scope guard (`UnwindContextWithIo` / `UnwindContextWithFmt`):
payload, the result its panic detector will report, the optional color
scheme, and the captured caller location.  The sink is supplied
separately. -/
structure UnwindContext where
  data : UnwindContextData
  isPanicking : Bool
  color_scheme : Option AnsiColorScheme
  file : String
  line : Nat
  col : Nat
  deriving DecidableEq, Repr

/-- The writes of the guards' `print`: with a color scheme,
`writeln!(w, "{:?}\n    at {}{}:{}:{}{}", colored-data, location-escape,
file, line, column, default-escape)`; without one,
`writeln!(w, "{:?}\n    at {}:{}:{}", data, file, line, column)`. -/
def printEvs (isAlnum : Char → Bool) (g : UnwindContext) : List WEv :=
  match g.color_scheme with
  | some cs =>
      dataColoredEvs isAlnum cs g.data ++
        [.str "\n    at ", .sty cs.location, .str g.file, .str ":",
         .str (toString g.line), .str ":", .str (toString g.col),
         .sty cs.default, .str "\n"]
  | none =>
      dataPlainEvs g.data ++
        [.str "\n    at ", .str g.file, .str ":", .str (toString g.line),
         .str ":", .str (toString g.col), .str "\n"]

/-- `UnwindContextWithFmt::print` (`src/context_with_fmt.rs`): write the
message, swallowing any write failure.  `core::fmt::Write` sinks have no
flush operation and none is performed. -/
def printWithFmt (isAlnum : Char → Bool) (g : UnwindContext)
    (st : FixedSink) : FixedSink :=
  runSwallow (printEvs isAlnum g) st

/-- `UnwindContextWithIo::print` (`src/context_with_io.rs`): write the
message, swallowing any write failure, then `let _ = flush()`,
swallowing any flush failure. -/
def printWithIo (isAlnum : Char → Bool) (g : UnwindContext)
    (st : FixedSink) : FixedSink :=
  let st2 := runSwallow (printEvs isAlnum g) st
  match sinkFlush st2 with
  | .ok st3 => st3
  | .error st3 => st3

/-- `Drop for UnwindContextWithFmt`: print iff the panic detector
reports unwinding. -/
def dropWithFmt (isAlnum : Char → Bool) (g : UnwindContext)
    (st : FixedSink) : FixedSink :=
  if g.isPanicking then printWithFmt isAlnum g st else st

/-- `Drop for UnwindContextWithIo`: print iff the panic detector
reports unwinding. -/
def dropWithIo (isAlnum : Char → Bool) (g : UnwindContext)
    (st : FixedSink) : FixedSink :=
  if g.isPanicking then printWithIo isAlnum g st else st

/-- The process-wide state of `src/set_colors.rs`: the
`SHOULD_COLORIZE` flag and the `DEFAULT_COLOR_SCHEME` atomic reference
(`None` until `set_default_color_scheme` is called). -/
structure GlobalColorState where
  colorsEnabled : Bool
  defaultScheme : Option AnsiColorScheme
  deriving DecidableEq, Repr

/-- `are_colors_enabled` from `src/set_colors.rs`. -/
def areColorsEnabled (g : GlobalColorState) : Bool :=
  g.colorsEnabled

/-- `get_default_color_scheme` from `src/set_colors.rs`: the installed
scheme, or `DEFAULT_DEFAULT_COLOR_SCHEME` when none was set. -/
def getDefaultColorScheme (g : GlobalColorState) : AnsiColorScheme :=
  g.defaultScheme.getD DEFAULT_DEFAULT_COLOR_SCHEME

/-- `get_default_color_scheme_if_enabled` from `src/set_colors.rs`:
`are_colors_enabled().then(get_default_color_scheme)`. -/
def getDefaultColorSchemeIfEnabled (g : GlobalColorState) :
    Option AnsiColorScheme :=
  if areColorsEnabled g then some (getDefaultColorScheme g) else none

/-- The color-scheme argument resolution of the
`unwind_context_with_fmt!` / `unwind_context_with_io!` macros
(`expr_or_default_expr!`): an explicit `color_scheme = ...` argument is
used as given; when the argument is omitted,
`get_default_color_scheme_if_enabled()` is used. -/
def resolveColorScheme (explicitArg : Option (Option AnsiColorScheme))
    (g : GlobalColorState) : Option AnsiColorScheme :=
  match explicitArg with
  | some cs => cs
  | none => getDefaultColorSchemeIfEnabled g

/-- What a guard emits to its own writer, for the scope semantics: the
writer's identifier together with the rendered line. -/
structure GuardSpec where
  gid : Nat
  line : String
  deriving DecidableEq, Repr

/-- A computation shape for the scope-guard lifecycle semantics.  `ret`
returns normally, `panic` starts an unwind, `guarded g body` is a scope
holding a guard over its own writer for the duration of `body`,
`printG g k` is an explicit `print()` call on a live guard followed by
`k`, and `catchU body` is `catch_unwind` around `body`. -/
inductive Comp where
  | ret : Comp
  | panic : Comp
  | guarded : GuardSpec → Comp → Comp
  | printG : GuardSpec → Comp → Comp
  | catchU : Comp → Comp
  deriving DecidableEq, Repr

/-- Run a computation, modelling Rust's unwind mechanics: the result is
the list of `(writer, line)` emissions in order, and whether the
computation is unwinding when it finishes.  A guard's destructor runs
when its scope exits — after its body, in LIFO position — and renders
exactly when the thread is then unwinding (`std::thread::panicking`,
the `StdPanicDetector`); an explicit `print` renders unconditionally
and leaves the guard in place. -/
def runComp : Comp → List (Nat × String) × Bool
  | .ret => ([], false)
  | .panic => ([], true)
  | .guarded g body =>
      let r := runComp body
      (r.1 ++ (if r.2 then [(g.gid, g.line)] else []), r.2)
  | .printG g k =>
      let r := runComp k
      ((g.gid, g.line) :: r.1, r.2)
  | .catchU body =>
      ((runComp body).1, false)

/-- A chain of nested scopes, outermost first, each holding its own
guard, around an innermost computation. -/
def chainG (gs : List GuardSpec) (inner : Comp) : Comp :=
  gs.foldr Comp.guarded inner

/-- `true` iff the computation contains no explicit `print` call. -/
def printFree : Comp → Bool
  | .ret => true
  | .panic => true
  | .guarded _ body => printFree body
  | .printG _ _ => false
  | .catchU body => printFree body

/-- `true` iff the computation contains no panic. -/
def panicFree : Comp → Bool
  | .ret => true
  | .panic => false
  | .guarded _ body => panicFree body
  | .printG _ k => panicFree k
  | .catchU body => panicFree body

/-- The number of guard scopes in the computation writing to writer
`i`. -/
def countGuarded (i : Nat) : Comp → Nat
  | .ret => 0
  | .panic => 0
  | .guarded g body => (if g.gid = i then 1 else 0) + countGuarded i body
  | .printG _ k => countGuarded i k
  | .catchU body => countGuarded i body

/-- How many emissions of a run went to writer `i`. -/
def rendersTo (i : Nat) (out : List (Nat × String)) : Nat :=
  (out.filter fun p => p.1 = i).length

/-- The arguments of a cons-list, as a plain list. -/
def argsEntryList : UnwindContextArgs → List UnwindContextArg
  | .nil => []
  | .cons a r => a :: argsEntryList r

/-- Specification-side form of one rendered entry: `name: value` when a
name is present, the value alone otherwise. -/
def argEntryChars (a : UnwindContextArg) : List Char :=
  (match a.name with
   | some n => n.data ++ [':', ' ']
   | none => []) ++ (a.value.map String.data).flatten

/-- A concrete panicking guard without a color scheme. -/
def exGuardFmt : UnwindContext where
  data := .args (.cons ⟨some "foo", ["1"]⟩ .nil)
  isPanicking := true
  color_scheme := none
  file := "src/lib.rs"
  line := 10
  col := 5

theorem flattenW_nil : flattenW [] = [] := rfl

theorem flattenW_cons (ev : WEv) (evs : List WEv) :
    flattenW (ev :: evs) = ev.chars ++ flattenW evs := by
  simp [flattenW]

theorem flattenW_append (a b : List WEv) :
    flattenW (a ++ b) = flattenW a ++ flattenW b := by
  simp [flattenW]

theorem payloadChars_nil : payloadChars [] = [] := rfl

theorem payloadChars_cons (ev : WEv) (evs : List WEv) :
    payloadChars (ev :: evs) =
      (match ev with | .chr c => [c] | _ => []) ++ payloadChars evs := by
  cases ev <;> simp [payloadChars]

theorem payloadChars_append (a b : List WEv) :
    payloadChars (a ++ b) = payloadChars a ++ payloadChars b := by
  simp [payloadChars]

theorem ansiStyle_emptyColorScheme (st : ColoredWriterModeStyle) :
    st.ansiStyle emptyColorScheme = "" := by
  cases st <;> rfl

theorem flattenW_styleChangeEvs_empty (m m2 : ColoredWriterMode) :
    flattenW (styleChangeEvs emptyColorScheme m m2) = [] := by
  unfold styleChangeEvs
  split
  · rfl
  · simp [flattenW_cons, WEv.chars, ansiStyle_emptyColorScheme]
    rfl

theorem payloadChars_styleChangeEvs (cs : AnsiColorScheme)
    (m m2 : ColoredWriterMode) :
    payloadChars (styleChangeEvs cs m m2) = [] := by
  unfold styleChangeEvs
  split
  · rfl
  · simp [payloadChars]

theorem flattenW_resetEvs_empty (m : ColoredWriterMode) :
    flattenW (resetEvs emptyColorScheme m) = [] := by
  unfold resetEvs
  split
  · rfl
  · rfl

theorem flattenW_map_str (l : List String) :
    flattenW (l.map WEv.str) = (l.map String.data).flatten := by
  induction l with
  | nil => rfl
  | cons s rest ih => simp [flattenW_cons, WEv.chars, ih]

theorem coloredWriteStrEvs_flatten_empty (isAlnum : Char → Bool) :
    ∀ (s : List Char) (m : ColoredWriterMode),
      flattenW (coloredWriteStrEvs isAlnum emptyColorScheme m s).2 = s := by
  intro s
  induction s with
  | nil => intro m; rfl
  | cons ch rest ih =>
      intro m
      simp [coloredWriteStrEvs, flattenW_append, flattenW_cons, WEv.chars,
        flattenW_styleChangeEvs_empty, ih]

theorem coloredFragsEvs_flatten_empty (isAlnum : Char → Bool) :
    ∀ (frags : List String) (m : ColoredWriterMode),
      flattenW (coloredFragsEvs isAlnum emptyColorScheme m frags).2 =
        (frags.map String.data).flatten := by
  intro frags
  induction frags with
  | nil => intro m; rfl
  | cons s rest ih =>
      intro m
      simp [coloredFragsEvs, flattenW_append,
        coloredWriteStrEvs_flatten_empty, ih]

theorem payloadChars_coloredWriteStrEvs (isAlnum : Char → Bool)
    (cs : AnsiColorScheme) :
    ∀ (s : List Char) (m : ColoredWriterMode),
      payloadChars (coloredWriteStrEvs isAlnum cs m s).2 = s := by
  intro s
  induction s with
  | nil => intro m; rfl
  | cons ch rest ih =>
      intro m
      simp [coloredWriteStrEvs, payloadChars_append, payloadChars_cons,
        payloadChars_styleChangeEvs, ih]

theorem payloadChars_coloredFragsEvs (isAlnum : Char → Bool)
    (cs : AnsiColorScheme) :
    ∀ (frags : List String) (m : ColoredWriterMode),
      payloadChars (coloredFragsEvs isAlnum cs m frags).2 =
        (frags.map String.data).flatten := by
  intro frags
  induction frags with
  | nil => intro m; rfl
  | cons s rest ih =>
      intro m
      simp [coloredFragsEvs, payloadChars_append,
        payloadChars_coloredWriteStrEvs, ih]

theorem coloredWriteStrEvs_events_shape (isAlnum : Char → Bool)
    (cs : AnsiColorScheme) :
    ∀ (s : List Char) (m : ColoredWriterMode),
      ∀ ev ∈ (coloredWriteStrEvs isAlnum cs m s).2,
        (∃ c, ev = WEv.chr c) ∨
        (∃ st : ColoredWriterModeStyle, ev = WEv.sty (st.ansiStyle cs)) := by
  intro s
  induction s with
  | nil => intro m ev h; cases h
  | cons ch rest ih =>
      intro m ev h
      simp [coloredWriteStrEvs] at h
      rcases h with h | h | h
      · unfold styleChangeEvs at h
        split at h
        · cases h
        · simp at h
          subst h
          exact Or.inr ⟨_, rfl⟩
      · exact Or.inl ⟨ch, h⟩
      · exact ih _ ev h

theorem dataComma : (", ").data = [',', ' '] := rfl

theorem dataColonSpace : (": ").data = [':', ' '] := rfl

theorem dataFnSpace : ("fn ").data = ['f', 'n', ' '] := rfl

theorem dataOpenParen : ("(").data = ['('] := rfl

theorem dataCloseParen : (")").data = [')'] := rfl

theorem dataEmptyStr : ("").data = [] := rfl

theorem intercalateSingle (sep x : List Char) :
    List.intercalate sep [x] = x := by
  simp [List.intercalate, List.intersperse]

theorem intercalateConsCons (sep x y : List Char) (r : List (List Char)) :
    List.intercalate sep (x :: y :: r) = x ++ sep ++ List.intercalate sep (y :: r) := by
  simp [List.intercalate, List.intersperse]

theorem argPlainEvs_entry (a : UnwindContextArg) :
    flattenW (argPlainEvs a) = argEntryChars a := by
  unfold argPlainEvs argEntryChars
  cases a.name with
  | none => simp [flattenW_map_str]
  | some n =>
      simp [flattenW_append, flattenW_cons, WEv.chars, flattenW_map_str]

theorem argsPlainEvs_intercalate (l : UnwindContextArgs) :
    flattenW (argsPlainEvs l) =
      List.intercalate [',', ' '] ((argsEntryList l).map argEntryChars) := by
  induction l with
  | nil => rfl
  | cons a r ih =>
      cases r with
      | nil =>
          simp [argsPlainEvs, argsEntryList, intercalateSingle, argPlainEvs_entry]
      | cons b r2 =>
          rw [show argsPlainEvs (.cons a (.cons b r2)) =
              argPlainEvs a ++ WEv.str ", " :: argsPlainEvs (.cons b r2) from rfl]
          rw [flattenW_append, flattenW_cons, argPlainEvs_entry, ih]
          rw [show argsEntryList (.cons a (.cons b r2)) =
              a :: argsEntryList (.cons b r2) from rfl]
          rw [show argsEntryList (.cons b r2) = b :: argsEntryList r2 from rfl]
          simp only [List.map_cons]
          rw [intercalateConsCons]
          simp [WEv.chars, dataComma, List.append_assoc]

theorem argColoredEvs_flatten_empty (isAlnum : Char → Bool)
    (a : UnwindContextArg) :
    flattenW (argColoredEvs isAlnum emptyColorScheme a) =
      flattenW (argPlainEvs a) := by
  unfold argColoredEvs argPlainEvs
  cases a.name with
  | none =>
      simp [flattenW_append, coloredFragsEvs_flatten_empty,
        flattenW_resetEvs_empty, flattenW_map_str]
  | some n =>
      simp [flattenW_append, flattenW_cons, coloredFragsEvs_flatten_empty,
        flattenW_resetEvs_empty, flattenW_map_str]

theorem argsColoredEvs_flatten_empty (isAlnum : Char → Bool)
    (l : UnwindContextArgs) :
    flattenW (argsColoredEvs isAlnum emptyColorScheme l) =
      flattenW (argsPlainEvs l) := by
  induction l with
  | nil => rfl
  | cons a r ih =>
      cases r with
      | nil =>
          simp [argsColoredEvs, argsPlainEvs, argColoredEvs_flatten_empty]
      | cons b r2 =>
          rw [show argsColoredEvs isAlnum emptyColorScheme (.cons a (.cons b r2)) =
              argColoredEvs isAlnum emptyColorScheme a ++
                WEv.str ", " :: argsColoredEvs isAlnum emptyColorScheme (.cons b r2) from rfl,
            show argsPlainEvs (.cons a (.cons b r2)) =
              argPlainEvs a ++ WEv.str ", " :: argsPlainEvs (.cons b r2) from rfl]
          rw [flattenW_append, flattenW_append, flattenW_cons, flattenW_cons,
            argColoredEvs_flatten_empty, ih]

theorem funcColoredEvs_flatten_empty (isAlnum : Char → Bool)
    (f : UnwindContextFunc) :
    flattenW (funcColoredEvs isAlnum emptyColorScheme f) =
      flattenW (funcPlainEvs f) := by
  unfold funcColoredEvs funcPlainEvs
  simp [flattenW_append, flattenW_cons, WEv.chars,
    show emptyColorScheme.fn_keyword = "" from rfl,
    show emptyColorScheme.func_name = "" from rfl,
    show emptyColorScheme.func_braces = "" from rfl,
    show emptyColorScheme.default = "" from rfl,
    dataEmptyStr, argsColoredEvs_flatten_empty]

/-- **C2.** For every argument cons-list, the plain `Debug` rendering is
the entries joined by `", "` with no trailing separator: a named entry
renders as `name: value`, an unnamed entry renders its value alone, the
empty list renders as the empty string, the `NonExhaustiveMarker` value
renders as `...`, and a function record renders as `fn name(args)`. -/
theorem plain_rendering_matches_joined_form :
    (∀ l : UnwindContextArgs,
        flattenW (argsPlainEvs l) =
          List.intercalate [',', ' '] ((argsEntryList l).map argEntryChars))
    ∧ flattenW (argsPlainEvs .nil) = []
    ∧ (∀ (n : String) (v : List String),
        flattenW (argPlainEvs ⟨some n, v⟩) =
          n.data ++ [':', ' '] ++ (v.map String.data).flatten)
    ∧ (∀ v : List String,
        flattenW (argPlainEvs ⟨none, v⟩) = (v.map String.data).flatten)
    ∧ flattenW (argPlainEvs ⟨none, nonExhaustiveMarkerValue⟩) = ['.', '.', '.']
    ∧ (∀ (fname : String) (l : UnwindContextArgs),
        flattenW (funcPlainEvs ⟨fname, l⟩) =
          ('f' :: 'n' :: ' ' :: fname.data) ++
            '(' :: (List.intercalate [',', ' ']
              ((argsEntryList l).map argEntryChars) ++ [')'])) := by
  refine ⟨argsPlainEvs_intercalate, rfl, ?_, ?_, by decide, ?_⟩
  · intro n v
    rw [argPlainEvs_entry]
    simp [argEntryChars]
  · intro v
    rw [argPlainEvs_entry]
    simp [argEntryChars]
  · intro fname l
    unfold funcPlainEvs
    rw [flattenW_cons, flattenW_cons, flattenW_cons, flattenW_append,
      argsPlainEvs_intercalate]
    simp [WEv.chars, flattenW_cons, flattenW_nil, dataFnSpace, dataOpenParen,
      dataCloseParen]

/-- **C3.** With every entry of the color scheme equal to the empty
string, the colorized rendering of any payload (argument, argument list,
function record, or guard payload) is byte-identical to its plain
`Debug` rendering. -/
theorem colored_rendering_with_empty_scheme_is_plain :
    ∀ isAlnum : Char → Bool,
      (∀ a, flattenW (argColoredEvs isAlnum emptyColorScheme a) =
        flattenW (argPlainEvs a))
      ∧ (∀ l, flattenW (argsColoredEvs isAlnum emptyColorScheme l) =
        flattenW (argsPlainEvs l))
      ∧ (∀ f, flattenW (funcColoredEvs isAlnum emptyColorScheme f) =
        flattenW (funcPlainEvs f))
      ∧ (∀ d, flattenW (dataColoredEvs isAlnum emptyColorScheme d) =
        flattenW (dataPlainEvs d)) := by
  intro isAlnum
  refine ⟨argColoredEvs_flatten_empty isAlnum,
    argsColoredEvs_flatten_empty isAlnum,
    funcColoredEvs_flatten_empty isAlnum, ?_⟩
  intro d
  cases d with
  | args l => exact argsColoredEvs_flatten_empty isAlnum l
  | func f => exact funcColoredEvs_flatten_empty isAlnum f

/-- **C10.** The colorizing writer preserves the underlying text: the
payload characters it forwards to the inner sink (everything except the
inserted color-scheme escape strings) are exactly the input characters
in order, both for a single `write_str` call and across the fragments of
a wrapped value; moreover every event it emits is either a payload
character or one of the scheme's escape strings. -/
theorem colorizer_only_inserts_escapes :
    ∀ (isAlnum : Char → Bool) (cs : AnsiColorScheme) (m : ColoredWriterMode),
      (∀ s : List Char,
        payloadChars (coloredWriteStrEvs isAlnum cs m s).2 = s)
      ∧ (∀ frags : List String,
        payloadChars (coloredFragsEvs isAlnum cs m frags).2 =
          (frags.map String.data).flatten)
      ∧ (∀ s : List Char, ∀ ev ∈ (coloredWriteStrEvs isAlnum cs m s).2,
        (∃ c, ev = WEv.chr c) ∨
        (∃ st : ColoredWriterModeStyle, ev = WEv.sty (st.ansiStyle cs))) := by
  intro isAlnum cs m
  exact ⟨fun s => payloadChars_coloredWriteStrEvs isAlnum cs s m,
    fun frags => payloadChars_coloredFragsEvs isAlnum cs frags m,
    fun s => coloredWriteStrEvs_events_shape isAlnum cs s m⟩

/-- Witness for `colorizer_only_inserts_escapes` at a concrete input. -/
theorem colorizer_only_inserts_escapes_witness :
    payloadChars (coloredWriteStrEvs Char.isAlphanum
        DEFAULT_DEFAULT_COLOR_SCHEME .Default ['t']).2 = ['t'] ∧
    ((∃ c, WEv.chr 't' = WEv.chr c) ∨
      (∃ st : ColoredWriterModeStyle,
        WEv.chr 't' = WEv.sty (st.ansiStyle DEFAULT_DEFAULT_COLOR_SCHEME))) :=
  ⟨(colorizer_only_inserts_escapes Char.isAlphanum
      DEFAULT_DEFAULT_COLOR_SCHEME .Default).1 ['t'],
   (colorizer_only_inserts_escapes Char.isAlphanum
      DEFAULT_DEFAULT_COLOR_SCHEME .Default).2.2 ['t'] (WEv.chr 't')
      (by decide)⟩

theorem stepTrueKeywordIff (isAlnum : Char → Bool) (m : ColoredWriterMode)
    (tail : List Char) (ht : isAlnum 't' = true)
    (hm : m = .Default ∨ m = .QuotedEnd ∨ m = .Brace) :
    step isAlnum m 't' ('r' :: 'u' :: 'e' :: tail) = .Boolean ↔
      keywordBoundary tail = true := by
  have hmt : matchTrueIdent ('t' :: 'r' :: 'u' :: 'e' :: tail) =
      keywordBoundary tail := rfl
  have hmf : matchFalseIdent ('t' :: 'r' :: 'u' :: 'e' :: tail) = false := rfl
  rcases hm with rfl | rfl | rfl <;>
  · simp only [step, show isDigitOrSign 't' = false from rfl,
      show isBraceChar 't' = false from rfl,
      show ('t' == '_') = false from rfl,
      show ('t' == '\"') = false from rfl,
      show ('t' == '\'') = false from rfl,
      show Char.isUpper 't' = false from rfl,
      ht, hmt, hmf, Bool.or_false, Bool.false_eq_true, if_false, if_true]
    cases hb : keywordBoundary tail <;> simp [hb]

theorem stepFalseKeywordIff (isAlnum : Char → Bool) (m : ColoredWriterMode)
    (tail : List Char) (hf : isAlnum 'f' = true)
    (hm : m = .Default ∨ m = .QuotedEnd ∨ m = .Brace) :
    step isAlnum m 'f' ('a' :: 'l' :: 's' :: 'e' :: tail) = .Boolean ↔
      keywordBoundary tail = true := by
  have hmt : matchTrueIdent ('f' :: 'a' :: 'l' :: 's' :: 'e' :: tail) =
      false := rfl
  have hmf : matchFalseIdent ('f' :: 'a' :: 'l' :: 's' :: 'e' :: tail) =
      keywordBoundary tail := rfl
  rcases hm with rfl | rfl | rfl <;>
  · simp only [step, show isDigitOrSign 'f' = false from rfl,
      show isBraceChar 'f' = false from rfl,
      show ('f' == '_') = false from rfl,
      show ('f' == '\"') = false from rfl,
      show ('f' == '\'') = false from rfl,
      show Char.isUpper 'f' = false from rfl,
      hf, hmt, hmf, Bool.false_or, Bool.false_eq_true, if_false, if_true]
    cases hb : keywordBoundary tail <;> simp [hb]

/-- **C4.** From a default-category position (mode `Default`, `QuotedEnd`
or `Brace`), the tokens `true` and `false` are classified `Boolean`
exactly when the character following the whole token is absent or is
neither an ASCII alphanumeric nor an underscore; in particular `true1`,
`true_` and `truetrue` never enter the `Boolean` category while
`(true)`, `true-false` and `true false` do. -/
theorem boolean_keyword_requires_boundary :
    (∀ (isAlnum : Char → Bool) (m : ColoredWriterMode) (tail : List Char),
        isAlnum 't' = true →
        (m = .Default ∨ m = .QuotedEnd ∨ m = .Brace) →
        (step isAlnum m 't' ('r' :: 'u' :: 'e' :: tail) = .Boolean ↔
          keywordBoundary tail = true))
    ∧ (∀ (isAlnum : Char → Bool) (m : ColoredWriterMode) (tail : List Char),
        isAlnum 'f' = true →
        (m = .Default ∨ m = .QuotedEnd ∨ m = .Brace) →
        (step isAlnum m 'f' ('a' :: 'l' :: 's' :: 'e' :: tail) = .Boolean ↔
          keywordBoundary tail = true))
    ∧ ColoredWriterMode.Boolean ∉ modesOf Char.isAlphanum .Default "true1".data
    ∧ ColoredWriterMode.Boolean ∉ modesOf Char.isAlphanum .Default "true_".data
    ∧ ColoredWriterMode.Boolean ∉ modesOf Char.isAlphanum .Default "truetrue".data
    ∧ ColoredWriterMode.Boolean ∈ modesOf Char.isAlphanum .Default "(true)".data
    ∧ ColoredWriterMode.Boolean ∈ modesOf Char.isAlphanum .Default "true-false".data
    ∧ ColoredWriterMode.Boolean ∈ modesOf Char.isAlphanum .Default "true false".data :=
  ⟨stepTrueKeywordIff, stepFalseKeywordIff, by decide, by decide, by decide,
    by decide, by decide, by decide⟩

/-- Witness for `boolean_keyword_requires_boundary` at concrete inputs:
`true` at the end of the input, read from mode `Default`, is classified
`Boolean`. -/
theorem boolean_keyword_requires_boundary_witness :
    step Char.isAlphanum .Default 't' ['r', 'u', 'e'] = .Boolean ↔
      keywordBoundary [] = true :=
  boolean_keyword_requires_boundary.1 Char.isAlphanum .Default []
    (by decide) (Or.inl rfl)

/-- **C5.** Inside a double- or single-quoted run, the character
immediately after an unescaped backslash is always classified in the
`Escaped` category regardless of its value — in particular a quote
there does not terminate the run — and the matching unescaped closing
quote transitions to `QuotedEnd`.  The concrete inputs `"\""` and
`'\''` produce the expected mode sequences. -/
theorem escaped_char_after_backslash :
    ∀ (isAlnum : Char → Bool) (ch : Char) (rest : List Char),
      step isAlnum .DoubleQuotedEscapeChar ch rest = .DoubleQuotedEscaped
      ∧ step isAlnum .SingleQuotedEscapeChar ch rest = .SingleQuotedEscaped
      ∧ ColoredWriterMode.style .DoubleQuotedEscaped = .Escaped
      ∧ ColoredWriterMode.style .SingleQuotedEscaped = .Escaped
      ∧ ColoredWriterMode.style .DoubleQuotedEscapeChar = .Escaped
      ∧ ColoredWriterMode.style .SingleQuotedEscapeChar = .Escaped
      ∧ step isAlnum .DoubleQuoted '\\' rest = .DoubleQuotedEscapeChar
      ∧ step isAlnum .DoubleQuotedEscaped '\\' rest = .DoubleQuotedEscapeChar
      ∧ step isAlnum .SingleQuoted '\\' rest = .SingleQuotedEscapeChar
      ∧ step isAlnum .SingleQuotedEscaped '\\' rest = .SingleQuotedEscapeChar
      ∧ step isAlnum .DoubleQuoted '\"' rest = .QuotedEnd
      ∧ step isAlnum .DoubleQuotedEscaped '\"' rest = .QuotedEnd
      ∧ step isAlnum .SingleQuoted '\'' rest = .QuotedEnd
      ∧ step isAlnum .SingleQuotedEscaped '\'' rest = .QuotedEnd
      ∧ modesOf isAlnum .Default ['\"', '\\', '\"', '\"'] =
        [.DoubleQuoted, .DoubleQuotedEscapeChar, .DoubleQuotedEscaped, .QuotedEnd]
      ∧ modesOf isAlnum .Default ['\'', '\\', '\'', '\''] =
        [.SingleQuoted, .SingleQuotedEscapeChar, .SingleQuotedEscaped,
          .QuotedEnd] :=
  fun _ _ _ =>
    ⟨rfl, rfl, rfl, rfl, rfl, rfl, rfl, rfl, rfl, rfl, rfl, rfl, rfl, rfl,
      rfl, rfl⟩

theorem runWrites_ok_le (evs : List WEv) :
    ∀ st st2 : FixedSink, st.out.length ≤ st.cap →
      runWrites evs st = .ok st2 →
      st2.out.length = st.out.length + (flattenW evs).length ∧
        st2.out.length ≤ st.cap := by
  induction evs with
  | nil =>
      intro st st2 hle h
      cases h
      exact ⟨by simp [flattenW_nil], hle⟩
  | cons ev rest ih =>
      intro st st2 hle h
      rw [show runWrites (ev :: rest) st =
          (match sinkWrite st ev.chars with
           | .ok st2 => runWrites rest st2
           | .error st2 => .error st2) from rfl] at h
      unfold sinkWrite at h
      by_cases hc : st.out.length + ev.chars.length ≤ st.cap
      · rw [if_pos hc] at h
        simp only [] at h
        obtain ⟨h1, h2⟩ := ih _ _ (by simpa using hc) h
        refine ⟨?_, h2⟩
        rw [h1]
        simp [flattenW_cons, Nat.add_assoc]
      · rw [if_neg hc] at h
        exact absurd h (by simp)

theorem runWrites_fails_of_short (evs : List WEv) (k : Nat)
    (h : k < (flattenW evs).length) :
    isFail (runWrites evs (emptySink k)) = true := by
  cases hr : runWrites evs (emptySink k) with
  | error st => rfl
  | ok st2 =>
      obtain ⟨h1, h2⟩ := runWrites_ok_le evs (emptySink k) st2
        (by simp [emptySink]) hr
      simp [emptySink] at h1 h2
      omega

theorem runWrites_ok_of_fits (evs : List WEv) :
    ∀ st : FixedSink, st.out.length + (flattenW evs).length ≤ st.cap →
      runWrites evs st = .ok { st with out := st.out ++ flattenW evs } := by
  induction evs with
  | nil =>
      intro st _
      simp [runWrites, flattenW_nil]
  | cons ev rest ih =>
      intro st hfit
      rw [show runWrites (ev :: rest) st =
          (match sinkWrite st ev.chars with
           | .ok st2 => runWrites rest st2
           | .error st2 => .error st2) from rfl]
      unfold sinkWrite
      rw [flattenW_cons] at hfit
      have hc : st.out.length + ev.chars.length ≤ st.cap := by
        simp [List.length_append] at hfit
        omega
      rw [if_pos hc]
      simp only []
      rw [ih { st with out := st.out ++ ev.chars }
        (by simp [List.length_append] at hfit ⊢; omega)]
      simp [List.append_assoc, flattenW_cons]

theorem runSwallow_of_fits (evs : List WEv) (st : FixedSink)
    (h : st.out.length + (flattenW evs).length ≤ st.cap) :
    runSwallow evs st = { st with out := st.out ++ flattenW evs } := by
  unfold runSwallow
  rw [runWrites_ok_of_fits evs st h]

/-- **C6.** For every payload and every capacity strictly smaller than
the full rendered output, replaying the render into a fresh sink of
exactly that capacity ends in a write failure, at the colorizer layer,
the argument-list layer (plain and colored) and the function-record
layer (plain and colored): output is never silently truncated. -/
theorem truncated_sink_fails :
    (∀ (isAlnum : Char → Bool) (cs : AnsiColorScheme) (m : ColoredWriterMode)
        (s : List Char) (k : Nat),
        k < (flattenW (coloredWriteStrEvs isAlnum cs m s).2).length →
        isFail (runWrites (coloredWriteStrEvs isAlnum cs m s).2
          (emptySink k)) = true)
    ∧ (∀ (l : UnwindContextArgs) (k : Nat),
        k < (flattenW (argsPlainEvs l)).length →
        isFail (runWrites (argsPlainEvs l) (emptySink k)) = true)
    ∧ (∀ (isAlnum : Char → Bool) (cs : AnsiColorScheme)
        (l : UnwindContextArgs) (k : Nat),
        k < (flattenW (argsColoredEvs isAlnum cs l)).length →
        isFail (runWrites (argsColoredEvs isAlnum cs l) (emptySink k)) = true)
    ∧ (∀ (f : UnwindContextFunc) (k : Nat),
        k < (flattenW (funcPlainEvs f)).length →
        isFail (runWrites (funcPlainEvs f) (emptySink k)) = true)
    ∧ (∀ (isAlnum : Char → Bool) (cs : AnsiColorScheme)
        (f : UnwindContextFunc) (k : Nat),
        k < (flattenW (funcColoredEvs isAlnum cs f)).length →
        isFail (runWrites (funcColoredEvs isAlnum cs f) (emptySink k)) = true) :=
  ⟨fun _ _ _ _ k h => runWrites_fails_of_short _ k h,
   fun _ k h => runWrites_fails_of_short _ k h,
   fun _ _ _ k h => runWrites_fails_of_short _ k h,
   fun _ k h => runWrites_fails_of_short _ k h,
   fun _ _ _ k h => runWrites_fails_of_short _ k h⟩

/-- Witness for `truncated_sink_fails`: rendering `foo: 1` (six
characters) into a sink of capacity three fails. -/
theorem truncated_sink_fails_witness :
    isFail (runWrites (argsPlainEvs
      (.cons ⟨some "foo", ["1"]⟩ .nil)) (emptySink 3)) = true :=
  truncated_sink_fails.2.1 (.cons ⟨some "foo", ["1"]⟩ .nil) 3 (by decide)

theorem dataColon : (":").data = [':'] := rfl

theorem dataNewline : ("\n").data = ['\n'] := rfl

theorem runSwallow_flushes (evs : List WEv) :
    ∀ st : FixedSink, (runSwallow evs st).flushes = st.flushes := by
  induction evs with
  | nil => intro st; rfl
  | cons ev rest ih =>
      intro st
      unfold runSwallow
      rw [show runWrites (ev :: rest) st =
          (match sinkWrite st ev.chars with
           | .ok st2 => runWrites rest st2
           | .error st2 => .error st2) from rfl]
      unfold sinkWrite
      by_cases hc : st.out.length + ev.chars.length ≤ st.cap
      · rw [if_pos hc]
        have h := ih { st with out := st.out ++ ev.chars }
        unfold runSwallow at h
        simpa using h
      · rw [if_neg hc]

theorem printWithIo_out (isAlnum : Char → Bool) (g : UnwindContext)
    (st : FixedSink) :
    (printWithIo isAlnum g st).out =
      (runSwallow (printEvs isAlnum g) st).out := by
  cases hf : (runSwallow (printEvs isAlnum g) st).flushFails <;>
    simp [printWithIo, sinkFlush, hf]

theorem printWithIo_flushes (isAlnum : Char → Bool) (g : UnwindContext)
    (st : FixedSink) :
    (printWithIo isAlnum g st).flushes =
      (runSwallow (printEvs isAlnum g) st).flushes + 1 := by
  cases hf : (runSwallow (printEvs isAlnum g) st).flushFails <;>
    simp [printWithIo, sinkFlush, hf]

/-- **C1 (amended).** When a guard is dropped and its panic detector
reports unwinding, it renders its payload (colorized when a color
scheme is resolved, plain otherwise) followed by `"\n    at "` and the
captured `file:line:column` (and a final newline from `writeln!`);
the `WithIo` guard then flushes the sink while the `WithFmt` guard
performs no flush; any write or flush failure is swallowed (the `WithIo`
flush is attempted even when the capacity made the writes fail, and
`drop` is total).  When the detector reports no unwinding, nothing is
written. -/
theorem drop_renders_exactly_on_unwind :
    ∀ (isAlnum : Char → Bool) (g : UnwindContext) (st : FixedSink),
      (g.isPanicking = false →
        dropWithFmt isAlnum g st = st ∧ dropWithIo isAlnum g st = st)
      ∧ (g.isPanicking = true →
        (dropWithIo isAlnum g st).flushes = st.flushes + 1 ∧
        (dropWithFmt isAlnum g st).flushes = st.flushes)
      ∧ (g.isPanicking = true →
        st.out.length + (flattenW (printEvs isAlnum g)).length ≤ st.cap →
        (dropWithFmt isAlnum g st).out =
          st.out ++ flattenW (printEvs isAlnum g) ∧
        (dropWithIo isAlnum g st).out =
          st.out ++ flattenW (printEvs isAlnum g))
      ∧ flattenW (printEvs isAlnum g) =
          (match g.color_scheme with
           | some cs =>
               flattenW (dataColoredEvs isAlnum cs g.data) ++
                 ("\n    at ").data ++ cs.location.data ++ g.file.data ++
                 [':'] ++ (toString g.line).data ++ [':'] ++
                 (toString g.col).data ++ cs.default.data ++ ['\n']
           | none =>
               flattenW (dataPlainEvs g.data) ++ ("\n    at ").data ++
                 g.file.data ++ [':'] ++ (toString g.line).data ++ [':'] ++
                 (toString g.col).data ++ ['\n']) := by
  intro isAlnum g st
  refine ⟨?_, ?_, ?_, ?_⟩
  · intro h
    constructor <;> simp [dropWithFmt, dropWithIo, h]
  · intro h
    constructor
    · simp only [dropWithIo, h, if_true]
      rw [printWithIo_flushes, runSwallow_flushes]
    · simp only [dropWithFmt, h, if_true, printWithFmt]
      rw [runSwallow_flushes]
  · intro h hfit
    constructor
    · simp only [dropWithFmt, h, if_true, printWithFmt]
      rw [runSwallow_of_fits _ _ hfit]
    · simp only [dropWithIo, h, if_true]
      rw [printWithIo_out, runSwallow_of_fits _ _ hfit]
  · cases hcs : g.color_scheme with
    | some cs =>
        simp [printEvs, hcs, flattenW_append, flattenW_cons, flattenW_nil,
          WEv.chars, dataColon, dataNewline, List.append_assoc]
    | none =>
        simp [printEvs, hcs, flattenW_append, flattenW_cons, flattenW_nil,
          WEv.chars, dataColon, dataNewline, List.append_assoc]

/-- Counterexample to C1 as stated: the `WithFmt` guard, dropped while
its detector reports unwinding, does not flush its sink (its
`core::fmt::Write` sink has no flush operation and `print` performs
none), contradicting the claim that every guard flushes after
rendering. -/
theorem fmt_drop_does_not_flush :
    exGuardFmt.isPanicking = true ∧
    ¬ ((dropWithFmt Char.isAlphanum exGuardFmt (emptySink 100)).flushes >
        (emptySink 100).flushes) := by
  refine ⟨rfl, ?_⟩
  have h := runSwallow_flushes (printEvs Char.isAlphanum exGuardFmt)
    (emptySink 100)
  simp [dropWithFmt, printWithFmt, show exGuardFmt.isPanicking = true from rfl,
    h]

/-- Witness for `drop_renders_exactly_on_unwind` at a concrete guard
and a sink with sufficient capacity. -/
theorem drop_renders_exactly_on_unwind_witness :
    (dropWithFmt Char.isAlphanum exGuardFmt (emptySink 100)).out =
      (emptySink 100).out ++ flattenW (printEvs Char.isAlphanum exGuardFmt) ∧
    (dropWithIo Char.isAlphanum exGuardFmt (emptySink 100)).out =
      (emptySink 100).out ++ flattenW (printEvs Char.isAlphanum exGuardFmt) :=
  (drop_renders_exactly_on_unwind Char.isAlphanum exGuardFmt
    (emptySink 100)).2.2.1 rfl (by decide)

theorem rendersTo_append (i : Nat) (a b : List (Nat × String)) :
    rendersTo i (a ++ b) = rendersTo i a + rendersTo i b := by
  simp [rendersTo, List.filter_append]

theorem panicFree_not_unwinding :
    ∀ c : Comp, panicFree c = true → (runComp c).2 = false := by
  intro c
  induction c with
  | ret => intro _; rfl
  | panic => intro h; cases h
  | guarded g body ih =>
      intro h
      simp only [panicFree] at h
      simp only [runComp]
      exact ih h
  | printG g k ih =>
      intro h
      simp only [panicFree] at h
      simp only [runComp]
      exact ih h
  | catchU body ih => intro _; rfl

/-- **C7.** Destruction is the only trigger for rendering and a guard
renders at most once per destructor run: in any print-free computation,
the number of lines a writer receives is bounded by the number of guard
scopes over it; a computation without panics emits nothing; a guard
scope emits its line exactly when its body finishes unwinding; and an
explicit `print` renders immediately without consuming or disarming the
guard — the subsequent drop behaves exactly as it would have without
the `print`. -/
theorem guard_renders_at_most_once_on_drop :
    (∀ (c : Comp) (i : Nat), printFree c = true →
        rendersTo i (runComp c).1 ≤ countGuarded i c)
    ∧ (∀ c : Comp, printFree c = true → panicFree c = true →
        (runComp c).1 = [])
    ∧ (∀ (g : GuardSpec) (b : Comp),
        runComp (.guarded g b) =
          ((runComp b).1 ++
            (if (runComp b).2 then [(g.gid, g.line)] else []),
            (runComp b).2))
    ∧ (∀ (g : GuardSpec) (b : Comp),
        runComp (.guarded g (.printG g b)) =
          ((g.gid, g.line) :: (runComp (.guarded g b)).1,
            (runComp (.guarded g b)).2)) := by
  refine ⟨?_, ?_, fun g b => rfl, fun g b => rfl⟩
  · intro c
    induction c with
    | ret => intro i _; simp [runComp, rendersTo, countGuarded]
    | panic => intro i _; simp [runComp, rendersTo, countGuarded]
    | guarded g body ih =>
        intro i h
        simp only [printFree] at h
        have hb := ih i h
        simp only [runComp, countGuarded]
        rw [rendersTo_append]
        have h2 : rendersTo i
            (if (runComp body).2 then [(g.gid, g.line)] else []) ≤
            (if g.gid = i then 1 else 0) := by
          cases (runComp body).2
          · simp [rendersTo]
          · by_cases hg : g.gid = i
            · simp [rendersTo, hg]
            · simp [rendersTo, hg]
        omega
    | printG g k ih =>
        intro i h
        simp [printFree] at h
    | catchU body ih =>
        intro i h
        simp only [printFree] at h
        simpa [runComp, countGuarded] using ih i h
  · intro c
    induction c with
    | ret => intro _ _; rfl
    | panic => intro _ h; cases h
    | guarded g body ih =>
        intro hp hq
        simp only [printFree] at hp
        simp only [panicFree] at hq
        simp only [runComp, ih hp hq, panicFree_not_unwinding body hq]
        rfl
    | printG g k ih =>
        intro hp _
        simp [printFree] at hp
    | catchU body ih =>
        intro hp hq
        simp only [printFree] at hp
        simp only [panicFree] at hq
        simp only [runComp]
        exact ih hp hq

/-- Witness for `guard_renders_at_most_once_on_drop`: a single guard
around a panicking body renders at most once, and a guard around a
normally returning body emits nothing. -/
theorem guard_renders_at_most_once_on_drop_witness :
    rendersTo 0 (runComp (.guarded ⟨0, "fn f()"⟩ .panic)).1 ≤
      countGuarded 0 (.guarded ⟨0, "fn f()"⟩ .panic) ∧
    (runComp (.guarded ⟨0, "fn f()"⟩ .ret)).1 = [] :=
  ⟨guard_renders_at_most_once_on_drop.1 (.guarded ⟨0, "fn f()"⟩ .panic) 0 rfl,
   guard_renders_at_most_once_on_drop.2.1 (.guarded ⟨0, "fn f()"⟩ .ret)
     rfl rfl⟩

/-- **C8.** Color-scheme resolution: an explicit `Some(scheme)`
per-guard argument is used as given; an omitted argument falls back to
`get_default_color_scheme_if_enabled()`, which returns the current
process-wide default scheme exactly when the process-wide enabled flag
is set and `None` otherwise. -/
theorem color_scheme_resolution :
    (∀ g : GlobalColorState,
        getDefaultColorSchemeIfEnabled g =
          if areColorsEnabled g then some (getDefaultColorScheme g) else none)
    ∧ (∀ (cs : AnsiColorScheme) (g : GlobalColorState),
        resolveColorScheme (some (some cs)) g = some cs)
    ∧ (∀ g : GlobalColorState,
        resolveColorScheme none g =
          if g.colorsEnabled then some (getDefaultColorScheme g) else none)
    ∧ (∀ g : GlobalColorState, g.colorsEnabled = false →
        getDefaultColorSchemeIfEnabled g = none)
    ∧ (∀ g : GlobalColorState, g.colorsEnabled = true →
        getDefaultColorSchemeIfEnabled g =
          some (getDefaultColorScheme g)) := by
  refine ⟨fun g => rfl, fun cs g => rfl, fun g => rfl, ?_, ?_⟩
  · intro g h
    simp [getDefaultColorSchemeIfEnabled, areColorsEnabled, h]
  · intro g h
    simp [getDefaultColorSchemeIfEnabled, areColorsEnabled, h]

/-- Witness for `color_scheme_resolution`: with the flag clear the
resolved scheme is `None`; with it set, the default scheme is used. -/
theorem color_scheme_resolution_witness :
    getDefaultColorSchemeIfEnabled ⟨false, none⟩ = none ∧
    getDefaultColorSchemeIfEnabled ⟨true, none⟩ =
      some (getDefaultColorScheme ⟨true, none⟩) :=
  ⟨color_scheme_resolution.2.2.2.1 ⟨false, none⟩ rfl,
   color_scheme_resolution.2.2.2.2 ⟨true, none⟩ rfl⟩

theorem runComp_chainG (gs : List GuardSpec) (b : Comp) :
    runComp (chainG gs b) =
      ((runComp b).1 ++
        (if (runComp b).2 then
          gs.reverse.map (fun g => (g.gid, g.line)) else []),
        (runComp b).2) := by
  induction gs with
  | nil =>
      cases hu : (runComp b).2 <;> simp [chainG, hu, Prod.ext_iff]
  | cons g gs ih =>
      have hc : chainG (g :: gs) b = .guarded g (chainG gs b) := rfl
      rw [hc]
      simp only [runComp, ih]
      cases hu : (runComp b).2 <;>
        simp [hu, List.map_append, List.append_assoc]

/-- **C9.** For a chain of nested scopes each holding its own guard
over its own writer: if the innermost call unwinds, exactly the guards
between the panic point and the nearest catch point emit one rendered
line each, in strict reverse-construction (innermost-first) order,
while guards outside the catch emit nothing; if no unwind occurs, no
writer receives any output. -/
theorem nested_guards_lifo_output :
    (∀ outer inner : List GuardSpec,
        runComp (chainG outer (.catchU (chainG inner .panic))) =
          (inner.reverse.map (fun g => (g.gid, g.line)), false))
    ∧ (∀ gs : List GuardSpec, runComp (chainG gs .ret) = ([], false)) := by
  constructor
  · intro outer inner
    have hin : runComp (chainG inner .panic) =
        (inner.reverse.map (fun g => (g.gid, g.line)), true) := by
      rw [runComp_chainG]
      simp [runComp]
    have hca : runComp (Comp.catchU (chainG inner .panic)) =
        (inner.reverse.map (fun g => (g.gid, g.line)), false) := by
      simp only [runComp, hin]
    rw [runComp_chainG, hca]
    simp
  · intro gs
    rw [runComp_chainG]
    simp [runComp]
